import Mathlib

/-!
# Usoul reminder backend: due-reminder scanners and push dispatch

A shallow embedding of `index.js` (the HTTP handlers for reminders, `sendPushToUser`
and the `cron.schedule` callback) and of `checkReminders.js` (`checkDueReminders`).

* SQLite tables are lists of rows; a statement is a pure function on the database.
* Asynchronous callbacks are linearised: a tick returns the database after all of
  its statements have run, together with the list of effects it issued.
* Built-ins and libraries outside the repository are parameters of the model
  (`Env`): `JSON.parse`, the outcome of `webpush.sendNotification`, and whether a
  SQLite statement reports an error.
-/

namespace Usoul

/-! ## Text comparison and timestamps -/

/-- SQLite's BINARY collation on TEXT: compare character by character (by code point,
which is the order of the UTF-8 bytes), and when one text is the beginning of the other
the shorter one sorts first. -/
def textCmp : List Char → List Char → Ordering
  | [], [] => .eq
  | [], _ :: _ => .lt
  | _ :: _, [] => .gt
  | a :: as, b :: bs => (compare a.toNat b.toNat).then (textCmp as bs)

/-- The SQL test `s <= t` on two TEXT values. -/
def textLe (s t : String) : Bool :=
  match textCmp s.data t.data with
  | .gt => false
  | _ => true

/-- The decimal digit `d` as a character. -/
def digitChar (d : Nat) : Char := Char.ofNat (48 + d)

/-- The last `w` decimal digits of `n`, most significant first, zero padded. -/
def padDigits : Nat → Nat → List Char
  | 0, _ => []
  | w + 1, n => padDigits w (n / 10) ++ [digitChar (n % 10)]

/-- A point in time as the UTC calendar fields a JavaScript `Date` exposes. -/
structure Instant where
  year : Nat
  month : Nat
  day : Nat
  hour : Nat
  minute : Nat
  second : Nat
  ms : Nat
  deriving DecidableEq, Repr

/-- The field ranges of a `Date` whose year has four digits (0000 to 9999), which is
when `toISOString` produces the 24 character form `YYYY-MM-DDTHH:mm:ss.sssZ`. -/
def Instant.Valid (t : Instant) : Prop :=
  t.year ≤ 9999 ∧ 1 ≤ t.month ∧ t.month ≤ 12 ∧ 1 ≤ t.day ∧ t.day ≤ 31 ∧
    t.hour ≤ 23 ∧ t.minute ≤ 59 ∧ t.second ≤ 59 ∧ t.ms ≤ 999

instance (t : Instant) : Decidable t.Valid := by
  unfold Instant.Valid; infer_instance

/-- Chronological comparison of two instants: field by field, most significant first. -/
def Instant.cmp (a b : Instant) : Ordering :=
  (compare a.year b.year).then ((compare a.month b.month).then ((compare a.day b.day).then
    ((compare a.hour b.hour).then ((compare a.minute b.minute).then
      ((compare a.second b.second).then (compare a.ms b.ms))))))

/-- Chronological `a <= b`. -/
def Instant.le (a b : Instant) : Prop := a.cmp b ≠ .gt

/-- Chronological `a < b`. -/
def Instant.lt (a b : Instant) : Prop := a.cmp b = .lt

instance (a b : Instant) : Decidable (a.le b) := by
  unfold Instant.le; infer_instance

instance (a b : Instant) : Decidable (a.lt b) := by
  unfold Instant.lt; infer_instance

/-- Comparison of two instants truncated to the minute. -/
def Instant.minuteCmp (a b : Instant) : Ordering :=
  (compare a.year b.year).then ((compare a.month b.month).then ((compare a.day b.day).then
    ((compare a.hour b.hour).then (compare a.minute b.minute))))

/-- The characters of `YYYY-MM-DDTHH:mm`. -/
def isoMinuteChars (t : Instant) : List Char :=
  padDigits 4 t.year ++ '-' :: padDigits 2 t.month ++ '-' :: padDigits 2 t.day
    ++ 'T' :: padDigits 2 t.hour ++ ':' :: padDigits 2 t.minute

/-- `Date.prototype.toISOString` for a four-digit year: `YYYY-MM-DDTHH:mm:ss.sssZ`. -/
def toISOString (t : Instant) : String :=
  String.mk (isoMinuteChars t ++ ':' :: padDigits 2 t.second ++ '.' :: padDigits 3 t.ms ++ ['Z'])

/-- An ISO-8601 UTC timestamp with second precision: `YYYY-MM-DDTHH:mm:ssZ`. -/
def toISOSeconds (t : Instant) : String :=
  String.mk (isoMinuteChars t ++ ':' :: padDigits 2 t.second ++ ['Z'])

/-! ## SQLite values and tables -/

/-- A value stored in a SQLite column or bound to a `?` (REAL and BLOB are not used). -/
inductive SqlValue where
  | null
  | int (n : Int)
  | text (s : String)
  deriving DecidableEq, Repr

/-- The WHERE test `a <= b`: a comparison with NULL is not true, every number sorts
before every text, and two texts are compared with the BINARY collation. -/
def sqlLe : SqlValue → SqlValue → Bool
  | .null, _ => false
  | _, .null => false
  | .int a, .int b => decide (a ≤ b)
  | .int _, .text _ => true
  | .text _, .int _ => false
  | .text a, .text b => textLe a b

/-- The order used by `ORDER BY ... ASC`: NULL first, then numbers, then texts. -/
def sqlOrderLe : SqlValue → SqlValue → Bool
  | .null, _ => true
  | _, .null => false
  | .int a, .int b => decide (a ≤ b)
  | .int _, .text _ => true
  | .text _, .int _ => false
  | .text a, .text b => textLe a b

/-- JavaScript truthiness of a request value. -/
def SqlValue.truthy : SqlValue → Bool
  | .null => false
  | .int n => n != 0
  | .text s => s != ""

/-- A row of `reminders` (`created_at` is never read or written by the code). -/
structure Reminder where
  id : Nat
  user_id : Nat
  message : SqlValue
  notify_at : SqlValue
  timezone : SqlValue
  notified : Nat
  deriving DecidableEq, Repr

/-- A row of `subscriptions`; `keys_json` is NULL or a text. -/
structure Subscription where
  id : Nat
  user_id : Nat
  endpoint : String
  keys_json : Option String
  deriving DecidableEq, Repr

/-- A row of `users` as `checkReminders.js` reads it: its key and the `push_sub`
column that the worker joins in (NULL or a text). -/
structure User where
  id : Nat
  push_sub : Option String
  deriving DecidableEq, Repr

/-- The database: the three tables and the AUTOINCREMENT counters. -/
structure Db where
  users : List User
  subscriptions : List Subscription
  reminders : List Reminder
  reminderSeq : Nat
  subscriptionSeq : Nat
  deriving DecidableEq, Repr

/-! ## JSON -/

/-- A decoded JSON value; a number keeps its lexeme. -/
inductive Json where
  | null
  | bool (b : Bool)
  | num (lexeme : String)
  | str (s : String)
  | arr (items : List Json)
  | obj (fields : List (String × Json))
  deriving Repr

/-- Drop leading JSON whitespace. -/
def skipWs : List Char → List Char
  | c :: cs => if c = ' ' ∨ c = '\t' ∨ c = '\n' ∨ c = '\r' then skipWs cs else c :: cs
  | [] => []

/-- Split off the longest prefix of decimal digits. -/
def spanDigits : List Char → List Char × List Char
  | c :: cs =>
    if c.isDigit then
      let r := spanDigits cs
      (c :: r.1, r.2)
    else ([], c :: cs)
  | [] => ([], [])

/-- The value of a hexadecimal digit. -/
def hexVal (c : Char) : Option Nat :=
  if c.isDigit then some (c.toNat - 48)
  else if 'a'.toNat ≤ c.toNat ∧ c.toNat ≤ 'f'.toNat then some (c.toNat - 87)
  else if 'A'.toNat ≤ c.toNat ∧ c.toNat ≤ 'F'.toNat then some (c.toNat - 55)
  else none

/-- The body of a JSON string after the opening quote, up to the closing quote; an
escape `\uXXXX` is decoded to the character of that code. -/
def parseStringBody : List Char → Option (List Char × List Char)
  | [] => none
  | '"' :: rest => some ([], rest)
  | '\\' :: 'u' :: a :: b :: c :: d :: rest =>
    match hexVal a, hexVal b, hexVal c, hexVal d, parseStringBody rest with
    | some x, some y, some z, some w, some (s, r) =>
      some (Char.ofNat (((x * 16 + y) * 16 + z) * 16 + w) :: s, r)
    | _, _, _, _, _ => none
  | '\\' :: e :: rest =>
    let dec : Option Char :=
      if e = '"' then some '"' else if e = '\\' then some '\\' else if e = '/' then some '/'
      else if e = 'b' then some (Char.ofNat 8) else if e = 'f' then some (Char.ofNat 12)
      else if e = 'n' then some '\n' else if e = 'r' then some '\r'
      else if e = 't' then some '\t' else none
    match dec, parseStringBody rest with
    | some ch, some (s, r) => some (ch :: s, r)
    | _, _ => none
  | c :: rest =>
    if c.toNat < 32 ∨ c = '\\' then none
    else match parseStringBody rest with
      | some (s, r) => some (c :: s, r)
      | none => none

/-- A JSON number at the head of the input: its lexeme and the rest. -/
def parseNumber (cs : List Char) : Option (List Char × List Char) :=
  let (sign, cs1) := match cs with
    | '-' :: r => (['-'], r)
    | _ => ([], cs)
  let (intPart, cs2) := spanDigits cs1
  if intPart = [] ∨ (intPart.head? = some '0' ∧ intPart.length ≠ 1) then none
  else
    let fracRes : Option (List Char × List Char) := match cs2 with
      | '.' :: r =>
        let (ds, r2) := spanDigits r
        if ds = [] then none else some ('.' :: ds, r2)
      | _ => some ([], cs2)
    match fracRes with
    | none => none
    | some (frac, cs3) =>
      let expRes : Option (List Char × List Char) := match cs3 with
        | e :: r =>
          if e = 'e' ∨ e = 'E' then
            let (sg, r1) := match r with
              | '+' :: q => (['+'], q)
              | '-' :: q => (['-'], q)
              | _ => ([], r)
            let (ds, r2) := spanDigits r1
            if ds = [] then none else some (e :: sg ++ ds, r2)
          else some ([], cs3)
        | [] => some ([], cs3)
      match expRes with
      | none => none
      | some (ex, cs4) => some (sign ++ intPart ++ frac ++ ex, cs4)

mutual
/-- One JSON value at the head of the input (after whitespace), with fuel. -/
def parseValue : Nat → List Char → Option (Json × List Char)
  | 0, _ => none
  | fuel + 1, cs =>
    match skipWs cs with
    | 'n' :: 'u' :: 'l' :: 'l' :: r => some (.null, r)
    | 't' :: 'r' :: 'u' :: 'e' :: r => some (.bool true, r)
    | 'f' :: 'a' :: 'l' :: 's' :: 'e' :: r => some (.bool false, r)
    | '"' :: r =>
      match parseStringBody r with
      | some (s, r2) => some (.str (String.mk s), r2)
      | none => none
    | '[' :: r =>
      match skipWs r with
      | ']' :: r2 => some (.arr [], r2)
      | _ =>
        match parseElems fuel r with
        | some (xs, r2) => some (.arr xs, r2)
        | none => none
    | '{' :: r =>
      match skipWs r with
      | '}' :: r2 => some (.obj [], r2)
      | _ =>
        match parseMembers fuel r with
        | some (kvs, r2) => some (.obj kvs, r2)
        | none => none
    | other =>
      match parseNumber other with
      | some (lx, r) => some (.num (String.mk lx), r)
      | none => none
/-- The elements of a non-empty array up to and including the closing bracket. -/
def parseElems : Nat → List Char → Option (List Json × List Char)
  | 0, _ => none
  | fuel + 1, cs =>
    match parseValue fuel cs with
    | none => none
    | some (v, r) =>
      match skipWs r with
      | ']' :: r2 => some ([v], r2)
      | ',' :: r2 =>
        match parseElems fuel r2 with
        | some (vs, r3) => some (v :: vs, r3)
        | none => none
      | _ => none
/-- The members of a non-empty object up to and including the closing brace. -/
def parseMembers : Nat → List Char → Option (List (String × Json) × List Char)
  | 0, _ => none
  | fuel + 1, cs =>
    match skipWs cs with
    | '"' :: r =>
      match parseStringBody r with
      | none => none
      | some (k, r1) =>
        match skipWs r1 with
        | ':' :: r2 =>
          match parseValue fuel r2 with
          | none => none
          | some (v, r3) =>
            match skipWs r3 with
            | '}' :: r4 => some ([(String.mk k, v)], r4)
            | ',' :: r4 =>
              match parseMembers fuel r4 with
              | some (kvs, r5) => some ((String.mk k, v) :: kvs, r5)
              | none => none
            | _ => none
        | _ => none
    | _ => none
end

/-- `JSON.parse` on a text: one value surrounded by optional whitespace; `none`
stands for the `SyntaxError` it throws. Two nested calls of the parser always
consume a character, which bounds the fuel by twice the length of the text. -/
def jsonParse (s : String) : Option Json :=
  match parseValue (2 * s.length + 2) s.data with
  | some (v, r) => if skipWs r = [] then some v else none
  | none => none

/-! ## The environment, effects and the push sender -/

/-- The notification payload `{ title, message, reminder_id }`. -/
structure Payload where
  title : String
  message : SqlValue
  reminder_id : Nat
  deriving DecidableEq, Repr

/-- One call `webpush.sendNotification(sub, JSON.stringify(payload))`. -/
structure PushCall where
  sub : Json
  payload : Payload

/-- What lies outside the repository: `JSON.parse` (`none` when it throws), whether
`webpush.sendNotification` resolves for a call, and whether SQLite reports an error
for the due-reminder SELECT, for the subscriptions SELECT of a user, and for the
UPDATE of a reminder id. -/
structure Env where
  jsonParse : String → Option Json
  pushOk : PushCall → Bool
  selectOk : Bool
  subsSelectOk : Nat → Bool
  updateOk : Nat → Bool

/-- The effects a tick issues. -/
inductive Effect where
  | write (id : Nat)
  | push (call : PushCall)
  | pushFailed (call : PushCall)

/-- The expression `s || d` on a nullable text: NULL and the empty text are falsy. -/
def orDefault (s : Option String) (d : String) : String :=
  match s with
  | none => d
  | some t => if t = "" then d else t

/-- The subscription object `{ endpoint: r.endpoint, keys: ... }` built in `sendPushToUser`. -/
def subObject (endpoint : String) (keys : Json) : Json :=
  .obj [("endpoint", .str endpoint), ("keys", keys)]

/-- The `rows.forEach` of `sendPushToUser`: for each row decode `keys_json || "{}"`
and call the transport; a rejected call runs the `.catch` handler. `JSON.parse` is not
guarded, so when it throws the exception leaves `forEach`: the flag is `true` and the
remaining rows are not visited. -/
def sendPushRows (env : Env) (payload : Payload) : List Subscription → List Effect × Bool
  | [] => ([], false)
  | r :: rest =>
    match env.jsonParse (orDefault r.keys_json "\x7b\x7d") with
    | none => ([], true)
    | some keys =>
      let call : PushCall := ⟨subObject r.endpoint keys, payload⟩
      let here := if env.pushOk call then [Effect.push call]
        else [Effect.push call, Effect.pushFailed call]
      let tail := sendPushRows env payload rest
      (here ++ tail.1, tail.2)

/-- The query `SELECT * FROM subscriptions WHERE user_id = ?`. -/
def subscriptionsOf (user_id : Nat) (db : Db) : List Subscription :=
  db.subscriptions.filter fun s => s.user_id == user_id

/-- The function `sendPushToUser(user_id, payload)` of index.js. -/
def sendPushToUser (env : Env) (db : Db) (user_id : Nat) (payload : Payload) :
    List Effect × Bool :=
  if env.subsSelectOk user_id then sendPushRows env payload (subscriptionsOf user_id db)
  else ([], false)

/-- The transport calls among a list of effects, in order. -/
def pushCalls : List Effect → List PushCall
  | [] => []
  | .push c :: es => c :: pushCalls es
  | _ :: es => pushCalls es

/-- The reminder ids of the store writes among a list of effects, in order. -/
def writeIds : List Effect → List Nat
  | [] => []
  | .write id :: es => id :: writeIds es
  | _ :: es => writeIds es

/-! ## The cron scanner of index.js -/

/-- The query `SELECT * FROM reminders WHERE notified = 0 AND notify_at <= ?`. -/
def dueReminders (now : String) (db : Db) : List Reminder :=
  db.reminders.filter fun r => r.notified == 0 && sqlLe r.notify_at (.text now)

/-- The statement `UPDATE reminders SET notified = 1 WHERE id = ?`. -/
def markNotified (id : Nat) (rs : List Reminder) : List Reminder :=
  rs.map fun r => if r.id == id then { r with notified := 1 } else r

/-- The statement of `markNotified`, applied unless SQLite reports an error. -/
def runUpdate (env : Env) (id : Nat) (db : Db) : Db :=
  if env.updateOk id then { db with reminders := markNotified id db.reminders } else db

/-- The UPDATE statements for a list of reminder ids, run in order. -/
def runUpdates (env : Env) : List Nat → Db → Db
  | [], db => db
  | id :: ids, db => runUpdates env ids (runUpdate env id db)

/-- The payload the cron scanner builds for a reminder. -/
def cronPayload (r : Reminder) : Payload := ⟨"Usoul Reminder", r.message, r.id⟩

/-- The body of the cron scanner's `rows.forEach`: issue the UPDATE, then call
`sendPushToUser` with the reminder's payload. An exception thrown in the callback of
`sendPushToUser` ends that callback; what Node does with the uncaught exception
afterwards is outside the model. -/
def cronStep (env : Env) (db : Db) (r : Reminder) : Db × List Effect :=
  (runUpdate env r.id db,
    Effect.write r.id :: (sendPushToUser env db r.user_id (cronPayload r)).1)

/-- The cron scanner's `rows.forEach` over the selected rows. -/
def cronRows (env : Env) : List Reminder → Db → Db × List Effect
  | [], db => (db, [])
  | r :: rs, db =>
    let s := cronStep env db r
    let t := cronRows env rs s.1
    (t.1, s.2 ++ t.2)

/-- The `cron.schedule` callback of index.js run at instant `now`. -/
def cronTick (env : Env) (now : Instant) (db : Db) : Db × List Effect :=
  if env.selectOk then cronRows env (dueReminders (toISOString now) db) db else (db, [])

/-! ## The worker of checkReminders.js -/

/-- A row of the worker's join: the reminder's columns and `users.push_sub`. -/
structure JoinedRow where
  reminder : Reminder
  push_sub : Option String
  deriving DecidableEq, Repr

/-- The worker's query: `reminders JOIN users ON reminders.user_id = users.id
WHERE notified = 0 AND notify_at <= ?`. -/
def checkDueRows (nowUTC : String) (db : Db) : List JoinedRow :=
  (db.reminders.filter fun r => r.notified == 0 && sqlLe r.notify_at (.text nowUTC)).flatMap
    fun r => (db.users.filter fun u => u.id == r.user_id).map fun u => ⟨r, u.push_sub⟩

/-- The payload the worker builds for a reminder. -/
def workerPayload (r : Reminder) : Payload := ⟨"⏰ Usoul Reminder", r.message, r.id⟩

/-- The body of the worker's `rows.forEach`: return early without a subscription or
when it does not decode; otherwise call the transport, and run the UPDATE in its
`.then` handler, that is only when the call resolves. -/
def checkStep (env : Env) (db : Db) (row : JoinedRow) : Db × List Effect :=
  match row.push_sub with
  | none => (db, [])
  | some s =>
    if s = "" then (db, [])
    else
      match env.jsonParse s with
      | none => (db, [])
      | some sub =>
        let call : PushCall := ⟨sub, workerPayload row.reminder⟩
        if env.pushOk call then
          (runUpdate env row.reminder.id db, [Effect.push call, Effect.write row.reminder.id])
        else (db, [Effect.push call, Effect.pushFailed call])

/-- The worker's `rows.forEach` over the selected rows. -/
def checkRows (env : Env) : List JoinedRow → Db → Db × List Effect
  | [], db => (db, [])
  | r :: rs, db =>
    let s := checkStep env db r
    let t := checkRows env rs s.1
    (t.1, s.2 ++ t.2)

/-- The current time as the worker formats it: `toISOString().slice(0, 16)`. -/
def nowUTC (now : Instant) : String := (toISOString now).take 16

/-- The function `checkDueReminders()` of checkReminders.js run at instant `now`. -/
def checkDueReminders (env : Env) (now : Instant) (db : Db) : Db × List Effect :=
  if env.selectOk then
    let rows := checkDueRows (nowUTC now) db
    if rows.length = 0 then (db, []) else checkRows env rows db
  else (db, [])

/-! ## The HTTP handlers of index.js -/

/-- An HTTP response: a status, and the rows or the new id where there is one. -/
inductive Response where
  | ok
  | created (id : Nat)
  | rows (rs : List Reminder)
  | error (status : Nat)
  deriving DecidableEq, Repr

/-- The largest of a list of row ids. -/
def maxId (ids : List Nat) : Nat := ids.foldr max 0

/-- The row id an AUTOINCREMENT table assigns: one more than every id ever used. -/
def nextRowId (seq : Nat) (ids : List Nat) : Nat := max seq (maxId ids) + 1

/-- The handler of `POST /api/reminders` for the authenticated user `uid`. -/
def postReminder (dbErr : Bool) (uid : Nat) (message notify_at timezone : SqlValue) (db : Db) :
    Db × Response :=
  if !message.truthy || !notify_at.truthy then (db, .error 400)
  else if dbErr then (db, .error 500)
  else
    let id := nextRowId db.reminderSeq (db.reminders.map fun r => r.id)
    ({ db with
        reminders := db.reminders ++
          [⟨id, uid, message, notify_at, if timezone.truthy then timezone else .text "UTC", 0⟩]
        reminderSeq := id },
      .created id)

/-- The handler of `GET /api/reminders` for the authenticated user `uid`. -/
def getReminders (dbErr : Bool) (uid : Nat) (db : Db) : Response :=
  if dbErr then .error 500
  else .rows ((db.reminders.filter fun r => r.user_id == uid).mergeSort
    fun a b => sqlOrderLe a.notify_at b.notify_at)

/-- The handler of `PUT /api/reminders/:id` for the authenticated user `uid`; `rowid` is
the integer the path segment denotes for the INTEGER column `id`, if any. -/
def putReminder (dbErr : Bool) (uid : Nat) (rowid : Option Nat) (message notify_at : SqlValue)
    (db : Db) : Db × Response :=
  if dbErr then (db, .error 500)
  else
    ({ db with
        reminders := db.reminders.map fun r =>
          if some r.id == rowid && r.user_id == uid then
            { r with message := message, notify_at := notify_at }
          else r },
      .ok)

/-- The handler of `DELETE /api/reminders/:id` for the authenticated user `uid`. -/
def deleteReminder (dbErr : Bool) (uid : Nat) (rowid : Option Nat) (db : Db) : Db × Response :=
  if dbErr then (db, .error 500)
  else
    ({ db with reminders := db.reminders.filter fun r => !(some r.id == rowid && r.user_id == uid) },
      .ok)

/-- The handler of `POST /api/subscribe`; `keysJson` is `JSON.stringify(sub.keys || {})`. -/
def postSubscribe (dbErr : Bool) (uid : Nat) (endpoint keysJson : String) (db : Db) :
    Db × Response :=
  if endpoint = "" then (db, .error 400)
  else if dbErr then (db, .error 500)
  else
    let id := nextRowId db.subscriptionSeq (db.subscriptions.map fun s => s.id)
    ({ db with
        subscriptions := db.subscriptions ++ [⟨id, uid, endpoint, some keysJson⟩]
        subscriptionSeq := id },
      .ok)

/-- A store operation: a tick of either scanner or a request of an authenticated user. -/
inductive Op where
  | cron (env : Env) (now : Instant)
  | worker (env : Env) (now : Instant)
  | post (dbErr : Bool) (uid : Nat) (message notify_at timezone : SqlValue)
  | put (dbErr : Bool) (uid : Nat) (rowid : Option Nat) (message notify_at : SqlValue)
  | delete (dbErr : Bool) (uid : Nat) (rowid : Option Nat)
  | subscribe (dbErr : Bool) (uid : Nat) (endpoint keysJson : String)

/-- The database after one operation. -/
def Op.apply : Op → Db → Db
  | .cron env now, db => (cronTick env now db).1
  | .worker env now, db => (checkDueReminders env now db).1
  | .post e uid m n tz, db => (postReminder e uid m n tz db).1
  | .put e uid rowid m n, db => (putReminder e uid rowid m n db).1
  | .delete e uid rowid, db => (deleteReminder e uid rowid db).1
  | .subscribe e uid ep k, db => (postSubscribe e uid ep k db).1

/-- The database after a sequence of operations, applied in order. -/
def runOps : List Op → Db → Db
  | [], db => db
  | op :: ops, db => runOps ops (op.apply db)

/-! ## Concrete inputs -/

/-- An environment in which every statement succeeds and every push is delivered. -/
def envAllOk : Env := ⟨jsonParse, fun _ => true, true, fun _ => true, fun _ => true⟩

/-- The instant 2024-01-01T10:00:00.000Z. -/
def tenOClock : Instant := ⟨2024, 1, 1, 10, 0, 0, 0⟩

/-- The instant 2024-01-01T11:00:00.000Z, one hour after `tenOClock`. -/
def elevenOClock : Instant := ⟨2024, 1, 1, 11, 0, 0, 0⟩

/-- A reminder of user 1 that is scheduled for `elevenOClock`. -/
def reminderAtEleven : Reminder :=
  ⟨2, 1, .text "call home", .text (toISOString elevenOClock), .text "UTC", 0⟩

/-- The instant 2024-01-01T10:01:30.000Z. -/
def halfPastMinute : Instant := ⟨2024, 1, 1, 10, 1, 30, 0⟩

/-- The instant 2024-01-01T10:01:29.000Z, one second before `halfPastMinute`. -/
def secondBefore : Instant := ⟨2024, 1, 1, 10, 1, 29, 0⟩

/-- The instant 2024-01-01T10:00:59.000Z, in the minute before `halfPastMinute`. -/
def minuteBefore : Instant := ⟨2024, 1, 1, 10, 0, 59, 0⟩

/-- A reminder of user 1 whose `notify_at` is the text `2024-01-01T10:01:29Z`. -/
def reminderSecondBefore : Reminder :=
  ⟨1, 1, .text "stand up", .text (toISOSeconds secondBefore), .text "UTC", 0⟩

/-- A store for the worker: user 1 with a decodable `push_sub` and `reminderSecondBefore`. -/
def dbSecondBefore : Db :=
  ⟨[⟨1, some "\x7b\"endpoint\":\"https://push.example/a\"\x7d"⟩], [], [reminderSecondBefore], 1, 0⟩

/-- A reminder of user 1 whose `notify_at` is the text `2024-01-01T10:00:59Z`. -/
def reminderMinuteBefore : Reminder :=
  ⟨1, 1, .text "stand up", .text (toISOSeconds minuteBefore), .text "UTC", 0⟩

/-- A store for the worker: user 1 with a decodable `push_sub` and `reminderMinuteBefore`. -/
def dbMinuteBefore : Db :=
  ⟨[⟨1, some "\x7b\"endpoint\":\"https://push.example/a\"\x7d"⟩], [], [reminderMinuteBefore], 1, 0⟩

/-- A reminder of user 1 that a scanner has already marked. -/
def reminderDone : Reminder :=
  ⟨1, 1, .text "water plants", .text (toISOString tenOClock), .text "UTC", 1⟩

/-- A store that holds `reminderDone`, its owner with one subscription, and a counter
that has counted its id. -/
def dbDone : Db :=
  ⟨[⟨1, some "\x7b\"endpoint\":\"https://push.example/a\"\x7d"⟩],
    [⟨1, 1, "https://push.example/a", some "\x7b\"p256dh\":\"k\",\"auth\":\"a\"\x7d"⟩],
    [reminderDone], 1, 1⟩

/-- Later operations on `dbDone`: the owner moves the reminder into the past and edits
its message, creates another reminder, and both scanners tick. -/
def opsAfterDone : List Op :=
  [.put false 1 (some 1) (.text "water plants now") (.text "2020-01-01T00:00:00.000Z"),
    .post false 1 (.text "second") (.text "2020-01-01T00:00:00.000Z") .null,
    .cron envAllOk elevenOClock, .worker envAllOk elevenOClock]

/-- A store with a reminder that is already notified and one that is due only at
`elevenOClock`. -/
def dbNothingDue : Db :=
  ⟨[⟨1, some "\x7b\"endpoint\":\"https://push.example/a\"\x7d"⟩],
    [⟨1, 1, "https://push.example/a", some "\x7b\"p256dh\":\"k\",\"auth\":\"a\"\x7d"⟩],
    [reminderDone, reminderAtEleven], 2, 1⟩

/-- The endpoint of a subscription object, when it has one. -/
def endpointOf : Json → Option String
  | .obj ((_, .str e) :: _) => some e
  | _ => none

/-- An environment in which the transport rejects every call to the first endpoint and
delivers every other call. -/
def envFirstFails : Env :=
  ⟨jsonParse, fun c => endpointOf c.sub != some "https://push.example/a", true,
    fun _ => true, fun _ => true⟩

/-- A payload as the cron scanner builds it. -/
def somePayload : Payload := ⟨"Usoul Reminder", .text "water plants", 1⟩

/-- A store in which user 1 has three subscriptions with decodable keys and user 2 has one. -/
def dbThreeSubscriptions : Db :=
  ⟨[], [⟨1, 1, "https://push.example/a", some "\x7b\"p256dh\":\"k\",\"auth\":\"a\"\x7d"⟩,
      ⟨2, 2, "https://push.example/z", some "\x7b\"p256dh\":\"z\",\"auth\":\"z\"\x7d"⟩,
      ⟨3, 1, "https://push.example/b", some "\x7b\"p256dh\":\"l\",\"auth\":\"b\"\x7d"⟩,
      ⟨4, 1, "https://push.example/c", some "\x7b\"p256dh\":\"m\",\"auth\":\"c\"\x7d"⟩],
    [], 0, 4⟩

/-- A store in which the first subscription of user 1 has a `keys_json` that is not JSON
and the second one is well formed. -/
def dbMalformedFirst : Db :=
  ⟨[], [⟨1, 1, "https://push.example/a", some "not json"⟩,
      ⟨2, 1, "https://push.example/b", some "\x7b\"p256dh\":\"l\",\"auth\":\"b\"\x7d"⟩],
    [], 0, 2⟩

/-- The store of `dbMalformedFirst` with the two subscriptions in the other order. -/
def dbMalformedLast : Db :=
  ⟨[], [⟨1, 1, "https://push.example/b", some "\x7b\"p256dh\":\"l\",\"auth\":\"b\"\x7d"⟩,
      ⟨2, 1, "https://push.example/a", some "not json"⟩],
    [], 0, 2⟩

/-- A store in which user 1 has three subscriptions without keys: `keys_json` NULL,
empty, and the text of the empty object. -/
def dbEmptyKeys : Db :=
  ⟨[], [⟨1, 1, "https://push.example/a", none⟩,
      ⟨2, 1, "https://push.example/b", some ""⟩,
      ⟨3, 1, "https://push.example/c", some "\x7b\x7d"⟩],
    [], 0, 3⟩

/-- A store with a reminder of user 1 and two reminders of user 2. -/
def dbTwoUsers : Db :=
  ⟨[], [],
    [⟨1, 1, .text "mine", .text "2024-01-01T10:00:00.000Z", .text "UTC", 0⟩,
      ⟨2, 2, .text "theirs", .text "2024-01-01T09:00:00.000Z", .text "UTC", 0⟩,
      ⟨3, 2, .text "theirs too", .null, .text "UTC", 1⟩],
    3, 0⟩

/-! ## Lemmas on text comparison and timestamps -/

theorem then_assoc (a b c : Ordering) : (a.then b).then c = a.then (b.then c) := by
  cases a <;> rfl

theorem compare_self_nat (n : Nat) : compare n n = Ordering.eq := Nat.compare_eq_eq.mpr rfl

theorem textCmp_append (a b x y : List Char) (h : a.length = b.length) :
    textCmp (a ++ x) (b ++ y) = (textCmp a b).then (textCmp x y) := by
  induction a generalizing b with
  | nil =>
    cases b with
    | nil => simp [textCmp, Ordering.then]
    | cons _ _ => simp at h
  | cons c cs ih =>
    cases b with
    | nil => simp at h
    | cons d ds =>
      simp only [List.length_cons, Nat.succ.injEq, add_left_inj] at h
      show (compare c.toNat d.toNat).then (textCmp (cs ++ x) (ds ++ y)) = _
      rw [ih ds h]
      simp only [textCmp, then_assoc]

theorem textCmp_cons_same (c : Char) (x y : List Char) :
    textCmp (c :: x) (c :: y) = textCmp x y := by
  simp [textCmp, Ordering.then, compare_self_nat]

theorem padDigits_length (w n : Nat) : (padDigits w n).length = w := by
  induction w generalizing n with
  | zero => rfl
  | succ w ih => simp [padDigits, ih]

theorem digitChar_toNat (d : Nat) (h : d < 10) : (digitChar d).toNat = 48 + d := by
  interval_cases d <;> rfl

theorem compare_digits (m n : Nat) :
    compare m n = (compare (m / 10) (n / 10)).then (compare (m % 10) (n % 10)) := by
  rcases Nat.lt_trichotomy (m / 10) (n / 10) with h | h | h
  · have : m < n := by omega
    rw [Nat.compare_eq_lt.mpr h, Nat.compare_eq_lt.mpr this]; rfl
  · rw [h, Nat.compare_eq_eq.mpr rfl]
    simp only [Ordering.then]
    rcases Nat.lt_trichotomy (m % 10) (n % 10) with h2 | h2 | h2
    · rw [Nat.compare_eq_lt.mpr h2, Nat.compare_eq_lt.mpr (by omega)]
    · rw [h2, Nat.compare_eq_eq.mpr (by omega : m = n), compare_self_nat]
    · rw [Nat.compare_eq_gt.mpr h2, Nat.compare_eq_gt.mpr (by omega)]
  · have : n < m := by omega
    rw [Nat.compare_eq_gt.mpr h, Nat.compare_eq_gt.mpr this]; rfl

theorem textCmp_padDigits (w m n : Nat) (hm : m < 10 ^ w) (hn : n < 10 ^ w) :
    textCmp (padDigits w m) (padDigits w n) = compare m n := by
  induction w generalizing m n with
  | zero =>
    simp at hm hn; subst hm; subst hn; simp [padDigits, textCmp, compare_self_nat]
  | succ w ih =>
    have hm2 : m / 10 < 10 ^ w := by rw [pow_succ] at hm; omega
    have hn2 : n / 10 < 10 ^ w := by rw [pow_succ] at hn; omega
    rw [padDigits, padDigits, textCmp_append _ _ _ _ (by simp [padDigits_length]), ih _ _ hm2 hn2]
    rw [compare_digits m n]
    congr 1
    simp only [textCmp, digitChar_toNat _ (Nat.mod_lt _ (by decide : 10 > 0))]
    have : compare (48 + m % 10) (48 + n % 10) = compare (m % 10) (n % 10) := by
      rcases Nat.lt_trichotomy (m % 10) (n % 10) with h | h | h
      · rw [Nat.compare_eq_lt.mpr h, Nat.compare_eq_lt.mpr (by omega)]
      · rw [h, compare_self_nat, compare_self_nat]
      · rw [Nat.compare_eq_gt.mpr h, Nat.compare_eq_gt.mpr (by omega)]
    rw [this]; cases compare (m % 10) (n % 10) <;> rfl

theorem textLe_iff (s t : String) : textLe s t = true ↔ textCmp s.data t.data ≠ .gt := by
  unfold textLe
  cases textCmp s.data t.data <;> simp

/-- A zero-padded field followed by the same separator on both sides. -/
theorem textCmp_field (w m n : Nat) (c : Char) (x y : List Char)
    (hm : m < 10 ^ w) (hn : n < 10 ^ w) :
    textCmp (padDigits w m ++ c :: x) (padDigits w n ++ c :: y)
      = (compare m n).then (textCmp x y) := by
  rw [textCmp_append _ _ _ _ (by simp [padDigits_length]), textCmp_padDigits w m n hm hn,
    textCmp_cons_same]

theorem isoMinuteChars_length (t : Instant) : (isoMinuteChars t).length = 16 := by
  simp [isoMinuteChars, padDigits_length]

/-- The minute parts of two timestamps compare like the instants truncated to the minute. -/
theorem textCmp_isoMinuteChars (a b : Instant) (ha : a.Valid) (hb : b.Valid) :
    textCmp (isoMinuteChars a) (isoMinuteChars b) = a.minuteCmp b := by
  obtain ⟨a1, a2, a3, a4, a5, a6, a7, a8, a9⟩ := ha
  obtain ⟨b1, b2, b3, b4, b5, b6, b7, b8, b9⟩ := hb
  simp only [isoMinuteChars, List.append_assoc, List.cons_append]
  rw [textCmp_field 4 _ _ _ _ _ (by omega) (by omega),
    textCmp_field 2 _ _ _ _ _ (by omega) (by omega),
    textCmp_field 2 _ _ _ _ _ (by omega) (by omega),
    textCmp_field 2 _ _ _ _ _ (by omega) (by omega),
    textCmp_padDigits 2 _ _ (by omega) (by omega)]
  rfl

theorem nowUTC_data (t : Instant) : (nowUTC t).data = isoMinuteChars t := by
  simp only [nowUTC, String.data_take, toISOString, List.append_assoc]
  rw [List.take_append_of_le_length (by simp [isoMinuteChars_length])]
  rw [List.take_of_length_le (by simp [isoMinuteChars_length])]

/-- A second-precision timestamp against the worker's minute text: below or equal exactly
when its minute is strictly earlier. -/
theorem textLe_toISOSeconds_nowUTC (t now : Instant) (ht : t.Valid) (hn : now.Valid) :
    textLe (toISOSeconds t) (nowUTC now) = true ↔ t.minuteCmp now = .lt := by
  have h := textCmp_append (isoMinuteChars t) (isoMinuteChars now)
    (':' :: padDigits 2 t.second ++ ['Z']) [] (by simp [isoMinuteChars_length])
  rw [List.append_nil, textCmp_isoMinuteChars t now ht hn] at h
  rw [textLe_iff]
  simp only [nowUTC_data, toISOSeconds, List.append_assoc]
  rw [h]
  cases t.minuteCmp now <;> simp [textCmp, Ordering.then]

/-- A text that is below a text stays below every extension of it. -/
theorem textCmp_append_right (s p q : List Char) (h : textCmp s p ≠ .gt) :
    textCmp s (p ++ q) ≠ .gt := by
  induction s generalizing p with
  | nil => cases p <;> cases q <;> simp [textCmp]
  | cons c cs ih =>
    cases p with
    | nil => simp [textCmp] at h
    | cons d ds =>
      simp only [textCmp, List.cons_append] at h ⊢
      cases hc : compare c.toNat d.toNat with
      | lt => simp [Ordering.then]
      | gt => rw [hc] at h; simp [Ordering.then] at h
      | eq =>
        rw [hc] at h
        simp only [Ordering.then] at h ⊢
        exact ih ds h

theorem sqlLe_nowUTC_imp (v : SqlValue) (now : Instant)
    (h : sqlLe v (.text (nowUTC now)) = true) : sqlLe v (.text (toISOString now)) = true := by
  cases v with
  | null => simp [sqlLe] at h
  | int n => simp [sqlLe]
  | text s =>
    simp only [sqlLe, textLe_iff] at h ⊢
    rw [nowUTC_data] at h
    simp only [toISOString, List.append_assoc]
    exact textCmp_append_right _ _ _ h

/-! ## Lemmas on effects and on the UPDATE statement -/

theorem writeIds_append (a b : List Effect) : writeIds (a ++ b) = writeIds a ++ writeIds b := by
  induction a with
  | nil => rfl
  | cons e es ih => cases e <;> simp [writeIds, ih]

theorem pushCalls_append (a b : List Effect) :
    pushCalls (a ++ b) = pushCalls a ++ pushCalls b := by
  induction a with
  | nil => rfl
  | cons e es ih => cases e <;> simp [pushCalls, ih]

theorem writeIds_sendPushRows (env : Env) (payload : Payload) (subs : List Subscription) :
    writeIds (sendPushRows env payload subs).1 = [] := by
  induction subs with
  | nil => rfl
  | cons s rest ih =>
    simp only [sendPushRows]
    cases env.jsonParse (orDefault s.keys_json "\x7b\x7d") with
    | none => rfl
    | some k =>
      simp only [writeIds_append, ih, List.append_nil]
      split <;> rfl

theorem writeIds_sendPushToUser (env : Env) (db : Db) (uid : Nat) (payload : Payload) :
    writeIds (sendPushToUser env db uid payload).1 = [] := by
  unfold sendPushToUser
  split
  · exact writeIds_sendPushRows _ _ _
  · rfl

theorem runUpdate_reminderSeq (env : Env) (id : Nat) (db : Db) :
    (runUpdate env id db).reminderSeq = db.reminderSeq := by
  unfold runUpdate; split <;> rfl

theorem markNotified_keeps (id i : Nat) (rs : List Reminder)
    (h : ∀ r ∈ rs, r.id = i → r.notified = 1) :
    ∀ r ∈ markNotified id rs, r.id = i → r.notified = 1 := by
  intro r hr hid
  simp only [markNotified, List.mem_map] at hr
  obtain ⟨x, hx, hxe⟩ := hr
  by_cases hc : x.id = id
  · simp [hc] at hxe; rw [← hxe]
  · simp only [beq_iff_eq, hc, if_false] at hxe
    rw [← hxe] at hid ⊢; exact h x hx hid

theorem runUpdate_keeps (env : Env) (id i : Nat) (db : Db)
    (h : ∀ r ∈ db.reminders, r.id = i → r.notified = 1) :
    ∀ r ∈ (runUpdate env id db).reminders, r.id = i → r.notified = 1 := by
  unfold runUpdate; split
  · exact markNotified_keeps id i _ h
  · exact h

theorem runUpdates_reminderSeq (env : Env) (ids : List Nat) (db : Db) :
    (runUpdates env ids db).reminderSeq = db.reminderSeq := by
  induction ids generalizing db with
  | nil => rfl
  | cons i is ih => simp [runUpdates, ih, runUpdate_reminderSeq]

/-- Rows already marked stay marked under any UPDATEs. -/
theorem runUpdates_keeps (env : Env) (ids : List Nat) (db : Db) (i : Nat)
    (h : ∀ r ∈ db.reminders, r.id = i → r.notified = 1) :
    ∀ r ∈ (runUpdates env ids db).reminders, r.id = i → r.notified = 1 := by
  induction ids generalizing db with
  | nil => exact h
  | cons j js ih => exact ih _ (runUpdate_keeps env j i db h)

theorem cronRows_writeIds (env : Env) (rows : List Reminder) (db : Db) :
    writeIds (cronRows env rows db).2 = rows.map fun r => r.id := by
  induction rows generalizing db with
  | nil => rfl
  | cons r rs ih =>
    show writeIds ((cronStep env db r).2 ++ (cronRows env rs (cronStep env db r).1).2) = _
    rw [writeIds_append, ih]
    simp only [cronStep, writeIds, writeIds_sendPushToUser, List.map_cons, List.cons_append,
      List.nil_append]

theorem cronRows_db (env : Env) (rows : List Reminder) (db : Db) :
    (cronRows env rows db).1 = runUpdates env (rows.map fun r => r.id) db := by
  induction rows generalizing db with
  | nil => rfl
  | cons r rs ih => simp only [cronRows, ih, cronStep, List.map_cons, runUpdates]

theorem checkStep_db (env : Env) (db : Db) (row : JoinedRow) :
    (checkStep env db row).1 = runUpdates env (writeIds (checkStep env db row).2) db := by
  unfold checkStep
  cases row.push_sub with
  | none => rfl
  | some s =>
    simp only
    split
    · rfl
    · cases env.jsonParse s with
      | none => rfl
      | some sub => simp only; split <;> rfl

theorem runUpdates_append (env : Env) (a b : List Nat) (db : Db) :
    runUpdates env (a ++ b) db = runUpdates env b (runUpdates env a db) := by
  induction a generalizing db with
  | nil => rfl
  | cons i is ih =>
    show runUpdates env (is ++ b) (runUpdate env i db) = _
    rw [ih]; rfl

theorem checkRows_db (env : Env) (rows : List JoinedRow) (db : Db) :
    (checkRows env rows db).1 = runUpdates env (writeIds (checkRows env rows db).2) db := by
  induction rows generalizing db with
  | nil => rfl
  | cons r rs ih =>
    simp only [checkRows, writeIds_append, runUpdates_append, ih]
    rw [← checkStep_db]

/-! ## Selection by the two queries -/

theorem mem_dueReminders (now : String) (db : Db) (r : Reminder) :
    r ∈ dueReminders now db ↔
      r ∈ db.reminders ∧ r.notified = 0 ∧ sqlLe r.notify_at (.text now) = true := by
  simp [dueReminders, List.mem_filter]

theorem mem_checkDueRows (now : String) (db : Db) (row : JoinedRow) :
    row ∈ checkDueRows now db ↔
      row.reminder ∈ db.reminders ∧ row.reminder.notified = 0 ∧
        sqlLe row.reminder.notify_at (.text now) = true ∧
        ∃ u ∈ db.users, u.id = row.reminder.user_id ∧ u.push_sub = row.push_sub := by
  simp only [checkDueRows, List.mem_flatMap, List.mem_filter, List.mem_map, Bool.and_eq_true,
    beq_iff_eq]
  constructor
  · rintro ⟨r, ⟨hr, h0, hle⟩, u, ⟨hu, hid⟩, rfl⟩
    exact ⟨hr, h0, hle, u, hu, hid, rfl⟩
  · rintro ⟨hr, h0, hle, u, hu, hid, hp⟩
    refine ⟨row.reminder, ⟨hr, h0, hle⟩, u, ⟨hu, hid⟩, ?_⟩
    cases row; simp_all

/-- Reminders of one table with a key on `id` are equal when their ids are. -/
theorem eq_of_id_eq (rs : List Reminder) (hkey : (rs.map fun x => x.id).Nodup)
    (a b : Reminder) (ha : a ∈ rs) (hb : b ∈ rs) (h : a.id = b.id) : a = b :=
  List.inj_on_of_nodup_map hkey ha hb h

/-- C2, as stated, fails: at 10:01:30 the worker compares with the text `2024-01-01T10:01`,
and the unnotified reminder of 10:01:29, one second earlier, is not selected: the tick
issues no effect and leaves the store as it is. -/
theorem worker_misses_previous_second :
    secondBefore.le halfPastMinute ∧
    reminderSecondBefore ∈ dbSecondBefore.reminders ∧
    reminderSecondBefore.notified = 0 ∧
    reminderSecondBefore.notify_at = .text "2024-01-01T10:01:29Z" ∧
    nowUTC halfPastMinute = "2024-01-01T10:01" ∧
    checkDueRows (nowUTC halfPastMinute) dbSecondBefore = [] ∧
    (checkDueReminders envAllOk halfPastMinute dbSecondBefore).1 = dbSecondBefore ∧
    (checkDueReminders envAllOk halfPastMinute dbSecondBefore).2.length = 0 := by
  decide

/-- C2, amended (checkReminders.js): a reminder with `notified = 0` whose `notify_at` is a
second-precision timestamp is selected by the worker's query at instant `T` exactly when it
is stored, its owner has a row in `users`, and the minute of `notify_at` is strictly earlier
than the minute of `T`; so a reminder of `T - 1 second` in the minute of `T` is not selected. -/
theorem worker_selects_iff_earlier_minute (T t : Instant) (db : Db) (r : Reminder)
    (hT : T.Valid) (ht : t.Valid) (hat : r.notify_at = .text (toISOSeconds t))
    (h0 : r.notified = 0) :
    ((∃ row ∈ checkDueRows (nowUTC T) db, row.reminder = r) ↔
      r ∈ db.reminders ∧ (∃ u ∈ db.users, u.id = r.user_id) ∧ t.minuteCmp T = .lt) ∧
    (1 ≤ T.second → t = { T with second := T.second - 1 } →
      ¬ ∃ row ∈ checkDueRows (nowUTC T) db, row.reminder = r) := by
  have hiff : (∃ row ∈ checkDueRows (nowUTC T) db, row.reminder = r) ↔
      r ∈ db.reminders ∧ (∃ u ∈ db.users, u.id = r.user_id) ∧ t.minuteCmp T = .lt := by
    constructor
    · rintro ⟨row, hrow, rfl⟩
      obtain ⟨hr, _, hle, u, hu, hid, _⟩ := (mem_checkDueRows _ _ _).mp hrow
      rw [hat] at hle
      simp only [sqlLe] at hle
      exact ⟨hr, ⟨u, hu, hid⟩, (textLe_toISOSeconds_nowUTC t T ht hT).mp hle⟩
    · rintro ⟨hr, ⟨u, hu, hid⟩, hlt⟩
      refine ⟨⟨r, u.push_sub⟩, (mem_checkDueRows _ _ _).mpr ⟨hr, h0, ?_, u, hu, hid, rfl⟩, rfl⟩
      show sqlLe r.notify_at _ = true
      rw [hat]
      simp only [sqlLe]
      exact (textLe_toISOSeconds_nowUTC t T ht hT).mpr hlt
  refine ⟨hiff, fun _ heq hsel => ?_⟩
  have hlt := (hiff.mp hsel).2.2
  subst heq
  simp [Instant.minuteCmp, compare_self_nat, Ordering.then] at hlt

/-- Witness for C2 amended: at 10:01:30 the reminder of 10:00:59 is selected. -/
theorem worker_selects_iff_earlier_minute_witness :
    halfPastMinute.Valid ∧ minuteBefore.Valid ∧ reminderMinuteBefore.notified = 0 ∧
    (∃ row ∈ checkDueRows (nowUTC halfPastMinute) dbMinuteBefore,
      row.reminder = reminderMinuteBefore) :=
  ⟨by decide, by decide, by decide,
    ((worker_selects_iff_earlier_minute halfPastMinute minuteBefore dbMinuteBefore
      reminderMinuteBefore (by decide) (by decide) rfl (by decide)).1).mpr
      ⟨by decide, ⟨⟨1, some "\x7b\"endpoint\":\"https://push.example/a\"\x7d"⟩, by decide, rfl⟩,
        by decide⟩⟩

/-! ## The notified flag under store operations -/

theorem cronTick_db (env : Env) (now : Instant) (db : Db) :
    (cronTick env now db).1 = runUpdates env (writeIds (cronTick env now db).2) db := by
  unfold cronTick
  split
  · rw [cronRows_writeIds, cronRows_db]
  · rfl

theorem checkDueReminders_db (env : Env) (now : Instant) (db : Db) :
    (checkDueReminders env now db).1 =
      runUpdates env (writeIds (checkDueReminders env now db).2) db := by
  unfold checkDueReminders
  split
  · simp only
    split
    · rfl
    · exact checkRows_db _ _ _
  · rfl

/-- Kept by every operation: rows of id `i` are marked, and the AUTOINCREMENT counter
has counted `i`. -/
theorem Op.apply_keeps (op : Op) (db : Db) (i : Nat)
    (h : ∀ x ∈ db.reminders, x.id = i → x.notified = 1) (hseq : i ≤ db.reminderSeq) :
    (∀ x ∈ (op.apply db).reminders, x.id = i → x.notified = 1) ∧
      i ≤ (op.apply db).reminderSeq := by
  cases op with
  | cron env now =>
    simp only [Op.apply]
    rw [cronTick_db]
    exact ⟨runUpdates_keeps _ _ _ _ h, by rw [runUpdates_reminderSeq]; exact hseq⟩
  | worker env now =>
    simp only [Op.apply]
    rw [checkDueReminders_db]
    exact ⟨runUpdates_keeps _ _ _ _ h, by rw [runUpdates_reminderSeq]; exact hseq⟩
  | post e uid m n tz =>
    simp only [Op.apply, postReminder]
    split
    · exact ⟨h, hseq⟩
    · split
      · exact ⟨h, hseq⟩
      · refine ⟨?_, ?_⟩
        · intro x hx hid
          simp only [List.mem_append, List.mem_singleton] at hx
          rcases hx with hx | hx
          · exact h x hx hid
          · subst hx
            simp only [nextRowId] at hid
            omega
        · simp only [nextRowId]; omega
  | put e uid rowid m n =>
    simp only [Op.apply, putReminder]
    split
    · exact ⟨h, hseq⟩
    · refine ⟨?_, hseq⟩
      intro x hx hid
      simp only [List.mem_map] at hx
      obtain ⟨y, hy, hyx⟩ := hx
      split at hyx
      · subst hyx; exact h y hy hid
      · subst hyx; exact h y hy hid
  | delete e uid rowid =>
    simp only [Op.apply, deleteReminder]
    split
    · exact ⟨h, hseq⟩
    · exact ⟨fun x hx hid => h x (List.mem_filter.mp hx).1 hid, hseq⟩
  | subscribe e uid ep k =>
    simp only [Op.apply, postSubscribe]
    split
    · exact ⟨h, hseq⟩
    · split
      · exact ⟨h, hseq⟩
      · exact ⟨h, hseq⟩

theorem runOps_keeps (ops : List Op) (db : Db) (i : Nat)
    (h : ∀ x ∈ db.reminders, x.id = i → x.notified = 1) (hseq : i ≤ db.reminderSeq) :
    ∀ x ∈ (runOps ops db).reminders, x.id = i → x.notified = 1 := by
  induction ops generalizing db with
  | nil => exact h
  | cons op ops ih =>
    have hk := Op.apply_keeps op db i h hseq
    exact ih (op.apply db) hk.1 hk.2

/-- C3: a stored reminder with `notified = 1` stays so under every sequence of store
operations (ticks of either scanner, PUT, DELETE and POST requests, subscriptions): every
row of its id in the resulting store has `notified = 1`, and neither due-reminder query
selects it, whatever the time text the query is run with. -/
theorem notified_never_reselected (ops : List Op) (db : Db) (r : Reminder)
    (hr : r ∈ db.reminders) (hn : r.notified = 1)
    (hkey : (db.reminders.map fun x => x.id).Nodup) (hseq : r.id ≤ db.reminderSeq) :
    ∀ x ∈ (runOps ops db).reminders, x.id = r.id →
      x.notified = 1 ∧
      ∀ now : String, x ∉ dueReminders now (runOps ops db) ∧
        ∀ row ∈ checkDueRows now (runOps ops db), row.reminder ≠ x := by
  intro x hx hid
  have h0 : ∀ y ∈ db.reminders, y.id = r.id → y.notified = 1 := fun y hy hyid =>
    (eq_of_id_eq db.reminders hkey y r hy hr hyid) ▸ hn
  have h1 : x.notified = 1 := runOps_keeps ops db r.id h0 hseq x hx hid
  refine ⟨h1, fun now => ⟨?_, ?_⟩⟩
  · intro hd
    have := ((mem_dueReminders _ _ _).mp hd).2.1
    omega
  · intro row hrow hrx
    have := ((mem_checkDueRows _ _ _).mp hrow).2.1
    rw [hrx] at this
    omega

/-- Witness for C3: the marked reminder of `dbDone` after `opsAfterDone`, in which its
owner moves it into the past. -/
theorem notified_never_reselected_witness :
    reminderDone ∈ dbDone.reminders ∧ reminderDone.notified = 1 ∧
    (∃ x ∈ (runOps opsAfterDone dbDone).reminders, x.id = reminderDone.id) ∧
    ∀ x ∈ (runOps opsAfterDone dbDone).reminders, x.id = reminderDone.id →
      x.notified = 1 ∧
      ∀ now : String, x ∉ dueReminders now (runOps opsAfterDone dbDone) ∧
        ∀ row ∈ checkDueRows now (runOps opsAfterDone dbDone), row.reminder ≠ x :=
  ⟨by decide, by decide, by decide,
    notified_never_reselected opsAfterDone dbDone reminderDone (by decide) (by decide)
      (by decide) (by decide)⟩

/-! ## What a tick of each scanner does -/

/-- C9: when no stored reminder has `notified = 0` and `notify_at <= now`, a tick of the
cron scanner and a tick of the worker each issue no effect at all (no store write, no push
call) and return the store unchanged. -/
theorem idle_tick_is_noop (env : Env) (now : Instant) (db : Db)
    (hnone : ∀ r ∈ db.reminders,
      ¬ (r.notified = 0 ∧ sqlLe r.notify_at (.text (toISOString now)) = true)) :
    cronTick env now db = (db, []) ∧ checkDueReminders env now db = (db, []) := by
  have h1 : dueReminders (toISOString now) db = [] := by
    rw [List.eq_nil_iff_forall_not_mem]
    intro r hr
    obtain ⟨hm, h0, hle⟩ := (mem_dueReminders _ _ _).mp hr
    exact hnone r hm ⟨h0, hle⟩
  have h2 : checkDueRows (nowUTC now) db = [] := by
    rw [List.eq_nil_iff_forall_not_mem]
    intro row hrow
    obtain ⟨hm, h0, hle, _⟩ := (mem_checkDueRows _ _ _).mp hrow
    exact hnone _ hm ⟨h0, sqlLe_nowUTC_imp _ _ hle⟩
  constructor
  · unfold cronTick
    rw [h1]
    split <;> rfl
  · unfold checkDueReminders
    rw [h2]
    split <;> rfl

/-- Witness for C9: at 10:00 a store with a notified reminder and one due at 11:00. -/
theorem idle_tick_is_noop_witness :
    (∃ r ∈ dbNothingDue.reminders, r.notified = 0) ∧
    cronTick envAllOk tenOClock dbNothingDue = (dbNothingDue, []) ∧
    checkDueReminders envAllOk tenOClock dbNothingDue = (dbNothingDue, []) :=
  ⟨by decide, idle_tick_is_noop envAllOk tenOClock dbNothingDue (by decide)⟩

/-! ## Marking and delivery -/

/-- When every blob of the rows decodes, the sender does not throw and its push calls
match the rows one to one, in order. -/
theorem sendPushRows_all (env : Env) (payload : Payload) (subs : List Subscription)
    (h : ∀ s ∈ subs, (env.jsonParse (orDefault s.keys_json "\x7b\x7d")).isSome = true) :
    (sendPushRows env payload subs).2 = false ∧
    List.Forall₂
      (fun c s => c.payload = payload ∧
        ∃ k, env.jsonParse (orDefault s.keys_json "\x7b\x7d") = some k ∧
          c.sub = subObject s.endpoint k)
      (pushCalls (sendPushRows env payload subs).1) subs := by
  induction subs with
  | nil => exact ⟨rfl, List.Forall₂.nil⟩
  | cons s rest ih =>
    have hs := h s (List.mem_cons_self _ _)
    obtain ⟨k, hk⟩ := Option.isSome_iff_exists.mp hs
    have ih2 := ih fun x hx => h x (List.mem_cons_of_mem _ hx)
    simp only [sendPushRows, hk]
    refine ⟨ih2.1, ?_⟩
    rw [pushCalls_append]
    have hhere : pushCalls (if env.pushOk ⟨subObject s.endpoint k, payload⟩ = true
        then [Effect.push ⟨subObject s.endpoint k, payload⟩]
        else [Effect.push ⟨subObject s.endpoint k, payload⟩,
          Effect.pushFailed ⟨subObject s.endpoint k, payload⟩])
        = [⟨subObject s.endpoint k, payload⟩] := by
      split <;> rfl
    rw [hhere]
    exact List.Forall₂.cons ⟨rfl, k, hk, rfl⟩ ih2.2

/-- C6: when the subscriptions SELECT succeeds and every stored blob of the user's
subscriptions decodes, `sendPushToUser` does not throw and makes exactly one push call per
subscription of the user, in order, each with the given payload, the row's endpoint and
its decoded keys, whatever calls the transport resolves or rejects. -/
theorem sendPushToUser_attempts_all (env : Env) (db : Db) (uid : Nat) (payload : Payload)
    (hread : env.subsSelectOk uid = true)
    (hdec : ∀ s ∈ subscriptionsOf uid db,
      (env.jsonParse (orDefault s.keys_json "\x7b\x7d")).isSome = true) :
    (sendPushToUser env db uid payload).2 = false ∧
    (pushCalls (sendPushToUser env db uid payload).1).length = (subscriptionsOf uid db).length ∧
    List.Forall₂
      (fun c s => c.payload = payload ∧
        ∃ k, env.jsonParse (orDefault s.keys_json "\x7b\x7d") = some k ∧
          c.sub = subObject s.endpoint k)
      (pushCalls (sendPushToUser env db uid payload).1) (subscriptionsOf uid db) := by
  have h := sendPushRows_all env payload (subscriptionsOf uid db) hdec
  simp only [sendPushToUser, hread, if_true]
  exact ⟨h.1, h.2.length_eq, h.2⟩

/-- Witness for C6: user 1 of `dbThreeSubscriptions` when the transport rejects the call
to the first endpoint: three push calls and one failure report. -/
theorem sendPushToUser_attempts_all_witness :
    (subscriptionsOf 1 dbThreeSubscriptions).length = 3 ∧
    (sendPushToUser envFirstFails dbThreeSubscriptions 1 somePayload).1.length = 4 ∧
    ((sendPushToUser envFirstFails dbThreeSubscriptions 1 somePayload).2 = false ∧
    (pushCalls (sendPushToUser envFirstFails dbThreeSubscriptions 1 somePayload).1).length =
      (subscriptionsOf 1 dbThreeSubscriptions).length ∧
    List.Forall₂
      (fun c s => c.payload = somePayload ∧
        ∃ k, envFirstFails.jsonParse (orDefault s.keys_json "\x7b\x7d") = some k ∧
          c.sub = subObject s.endpoint k)
      (pushCalls (sendPushToUser envFirstFails dbThreeSubscriptions 1 somePayload).1)
      (subscriptionsOf 1 dbThreeSubscriptions)) :=
  ⟨by decide, by decide,
    sendPushToUser_attempts_all envFirstFails dbThreeSubscriptions 1 somePayload rfl
      (by decide)⟩

/-- C7 on the code: the first of the two subscriptions of user 1 in `dbMalformedFirst` has
a `keys_json` that `JSON.parse` rejects and the second one decodes; `sendPushToUser` throws
at the first row and makes no push call at all, so the second subscription is never
attempted. With the malformed row last, the first subscription is attempted. -/
theorem sendPushToUser_aborts_at_malformed :
    (subscriptionsOf 1 dbMalformedFirst).length = 2 ∧
    (jsonParse "not json").isNone = true ∧
    (jsonParse "\x7b\"p256dh\":\"l\",\"auth\":\"b\"\x7d").isSome = true ∧
    (sendPushToUser envAllOk dbMalformedFirst 1 somePayload).2 = true ∧
    (pushCalls (sendPushToUser envAllOk dbMalformedFirst 1 somePayload).1).length = 0 ∧
    (sendPushToUser envAllOk dbMalformedLast 1 somePayload).2 = true ∧
    (pushCalls (sendPushToUser envAllOk dbMalformedLast 1 somePayload).1).length = 1 := by
  decide

/-- C8, as stated, fails: user 1 of `dbEmptyKeys` has three subscriptions whose `keys_json`
is NULL, empty and the text of the empty object; `sendPushToUser` calls the transport for
each of them, with the empty object as keys. -/
theorem sendPushToUser_calls_without_keys :
    (subscriptionsOf 1 dbEmptyKeys).map (fun s => s.keys_json) =
      [none, some "", some "\x7b\x7d"] ∧
    (pushCalls (sendPushToUser envAllOk dbEmptyKeys 1 somePayload).1).length = 3 ∧
    (pushCalls (sendPushToUser envAllOk dbEmptyKeys 1 somePayload).1).map (fun c => c.sub) =
      [subObject "https://push.example/a" (.obj []),
        subObject "https://push.example/b" (.obj []),
        subObject "https://push.example/c" (.obj [])] :=
  ⟨by decide, by decide, rfl⟩

theorem orDefault_absent (k : Option String)
    (h : k = none ∨ k = some "" ∨ k = some "\x7b\x7d") :
    orDefault k "\x7b\x7d" = "\x7b\x7d" := by
  rcases h with h | h | h <;> subst h <;> simp [orDefault]

theorem mem_pushCalls_sendPushRows (env : Env) (payload : Payload)
    (pre : List Subscription) (s : Subscription) (post : List Subscription) (k : Json)
    (hpre : ∀ p ∈ pre, (env.jsonParse (orDefault p.keys_json "\x7b\x7d")).isSome = true)
    (hk : env.jsonParse (orDefault s.keys_json "\x7b\x7d") = some k) :
    (⟨subObject s.endpoint k, payload⟩ : PushCall) ∈
      pushCalls (sendPushRows env payload (pre ++ s :: post)).1 := by
  induction pre with
  | nil =>
    simp only [List.nil_append, sendPushRows, hk, pushCalls_append, List.mem_append]
    left
    split <;> simp [pushCalls]
  | cons p ps ih =>
    obtain ⟨j, hj⟩ := Option.isSome_iff_exists.mp (hpre p (List.mem_cons_self _ _))
    simp only [List.cons_append, sendPushRows, hj, pushCalls_append, List.mem_append]
    right
    exact ih fun x hx => hpre x (List.mem_cons_of_mem _ hx)

/-- C8, amended: for a subscription whose `keys_json` is NULL, empty or the text of the
empty object, `sendPushToUser` decodes the text of the empty object and does call the
transport for that subscription, with its endpoint and the empty object as keys, provided
the SELECT succeeds and the blobs of the user's earlier subscriptions decode. -/
theorem sendPushToUser_calls_with_empty_keys (env : Env) (db : Db) (uid : Nat)
    (payload : Payload) (pre : List Subscription) (s : Subscription)
    (post : List Subscription)
    (hread : env.subsSelectOk uid = true)
    (hsplit : subscriptionsOf uid db = pre ++ s :: post)
    (hpre : ∀ p ∈ pre, (env.jsonParse (orDefault p.keys_json "\x7b\x7d")).isSome = true)
    (hkeys : s.keys_json = none ∨ s.keys_json = some "" ∨ s.keys_json = some "\x7b\x7d")
    (hparse : env.jsonParse "\x7b\x7d" = some (.obj [])) :
    (⟨subObject s.endpoint (.obj []), payload⟩ : PushCall) ∈
      pushCalls (sendPushToUser env db uid payload).1 := by
  simp only [sendPushToUser, hread, if_true, hsplit]
  apply mem_pushCalls_sendPushRows env payload pre s post (.obj []) hpre
  rw [orDefault_absent _ hkeys, hparse]

/-- Witness for C8 amended: the second subscription of user 1 in `dbEmptyKeys`. -/
theorem sendPushToUser_calls_with_empty_keys_witness :
    (⟨subObject "https://push.example/b" (.obj []), somePayload⟩ : PushCall) ∈
      pushCalls (sendPushToUser envAllOk dbEmptyKeys 1 somePayload).1 :=
  sendPushToUser_calls_with_empty_keys envAllOk dbEmptyKeys 1 somePayload
    [⟨1, 1, "https://push.example/a", none⟩] ⟨2, 1, "https://push.example/b", some ""⟩
    [⟨3, 1, "https://push.example/c", some "\x7b\x7d"⟩] rfl (by decide) (by decide)
    (by decide) rfl

/-! ## Requests of one user and the reminders of the others -/

theorem filter_map_of_fixed {α : Type} (p : α → Bool) (f : α → α) (l : List α)
    (h : ∀ x ∈ l, p (f x) = p x ∧ (p x = true → f x = x)) :
    (l.map f).filter p = l.filter p := by
  induction l with
  | nil => rfl
  | cons a as ih =>
    have ha := h a (List.mem_cons_self _ _)
    have ih2 := ih fun x hx => h x (List.mem_cons_of_mem _ hx)
    simp only [List.map_cons, List.filter_cons, ha.1]
    by_cases hp : p a = true
    · simp only [hp, if_true, ha.2 hp, ih2]
    · simp only [hp, ih2]; rfl

/-- C10: a PUT or a DELETE request of the authenticated user `uid`, for any reminder id and
any body, leaves the rows of `reminders` that belong to other users exactly as they were
(the same rows in the same order, none added, removed or changed), and the rows that
`GET /api/reminders` returns to `uid` all have `user_id = uid`. -/
theorem requests_touch_own_reminders_only (dbErr : Bool) (uid : Nat) (rowid : Option Nat)
    (message notify_at : SqlValue) (db : Db) :
    ((putReminder dbErr uid rowid message notify_at db).1.reminders.filter
        (fun r => r.user_id != uid) = db.reminders.filter (fun r => r.user_id != uid)) ∧
    ((deleteReminder dbErr uid rowid db).1.reminders.filter
        (fun r => r.user_id != uid) = db.reminders.filter (fun r => r.user_id != uid)) ∧
    (∀ r ∈ db.reminders, r.user_id ≠ uid →
      r ∈ (putReminder dbErr uid rowid message notify_at db).1.reminders ∧
      r ∈ (deleteReminder dbErr uid rowid db).1.reminders) ∧
    (∀ rs, getReminders dbErr uid db = .rows rs → ∀ r ∈ rs, r.user_id = uid) := by
  have hput : (putReminder dbErr uid rowid message notify_at db).1.reminders.filter
      (fun r => r.user_id != uid) = db.reminders.filter (fun r => r.user_id != uid) := by
    unfold putReminder
    split
    · rfl
    · apply filter_map_of_fixed
      intro x _
      by_cases hx : x.user_id = uid
      · constructor
        · split <;> rfl
        · intro hp; simp [hx] at hp
      · have : (some x.id == rowid && x.user_id == uid) = false := by simp [hx]
        simp only [this]
        exact ⟨rfl, fun _ => rfl⟩
  have hdel : (deleteReminder dbErr uid rowid db).1.reminders.filter
      (fun r => r.user_id != uid) = db.reminders.filter (fun r => r.user_id != uid) := by
    unfold deleteReminder
    split
    · rfl
    · simp only [List.filter_filter]
      apply List.filter_congr
      intro x _
      by_cases hx : x.user_id = uid <;> simp [hx]
  refine ⟨hput, hdel, ?_, ?_⟩
  · intro r hr hne
    have hmem : r ∈ db.reminders.filter (fun r => r.user_id != uid) :=
      List.mem_filter.mpr ⟨hr, by simp [hne]⟩
    constructor
    · rw [← hput] at hmem; exact (List.mem_filter.mp hmem).1
    · rw [← hdel] at hmem; exact (List.mem_filter.mp hmem).1
  · intro rs hrs r hr
    unfold getReminders at hrs
    split at hrs
    · cases hrs
    · cases hrs
      rw [List.mem_mergeSort, List.mem_filter] at hr
      simpa using hr.2

/-- Witness for C10: user 1 aims a PUT and a DELETE at reminder 2, which user 2 owns. -/
theorem requests_touch_own_reminders_only_witness :
    (∃ r ∈ dbTwoUsers.reminders, r.id = 2 ∧ r.user_id ≠ 1) ∧
    (putReminder false 1 (some 2) (.text "x") .null dbTwoUsers).1 = dbTwoUsers ∧
    (deleteReminder false 1 (some 2) dbTwoUsers).1 = dbTwoUsers ∧
    (∀ rs, getReminders false 1 dbTwoUsers = .rows rs → ∀ r ∈ rs, r.user_id = 1) :=
  ⟨by decide, by decide, by decide,
    (requests_touch_own_reminders_only false 1 (some 2) (.text "x") .null dbTwoUsers).2.2.2⟩

end Usoul
